import Mathlib

/-!
Verification of the kitchen-fridge iCal parsing core against its
natural-language specification.

The development shallowly embeds the Rust sources:
  - src/ical/parser.rs : the parse entry point, the task/event builders,
    the temporal normalizer and the component disambiguator;
  - src/item.rs        : the Item tagged union and its accessors;
  - src/event.rs       : the Event entity.

External library behaviour (the chrono date parser, the chrono-tz zone
database and the ical line lexer) is modelled at the interface level the
source uses: fixed-width strptime-style parsing with calendar validity
checks, an abstract zone database, and a stream of already-lexed calendar
documents.  Urls are modelled as opaque strings.
-/

namespace KitchenFridge

/-- A calendar date and time, second precision (model of chrono naive
date-times and, when the zone is UTC, of an absolute instant). -/
structure NaiveDT where
  year : Nat
  month : Nat
  day : Nat
  hour : Nat
  minute : Nat
  second : Nat
deriving DecidableEq, Repr

/-- Gregorian leap-year rule, as chrono implements it. -/
def isLeapYear (y : Nat) : Bool :=
  (y % 4 == 0 && y % 100 != 0) || y % 400 == 0

/-- Number of days of a month (1-12) in a given year. -/
def daysInMonth (y m : Nat) : Nat :=
  if m == 2 then (if isLeapYear y then 29 else 28)
  else if m == 4 || m == 6 || m == 9 || m == 11 then 30
  else 31

/-- Calendar validity check performed by chrono when assembling a parsed
date-time. -/
def validDT (dt : NaiveDT) : Bool :=
  1 ≤ dt.month && dt.month ≤ 12 &&
  1 ≤ dt.day && dt.day ≤ daysInMonth dt.year dt.month &&
  dt.hour < 24 && dt.minute < 60 && dt.second < 60

/-- Numeric value of a decimal digit character. -/
def digitVal (c : Char) : Nat := c.toNat - 48

/-- Two-digit decimal field. -/
def nat2 (a b : Char) : Nat := digitVal a * 10 + digitVal b

/-- Four-digit decimal field. -/
def nat4 (a b c d : Char) : Nat := nat2 a b * 100 + nat2 c d

/-- Assemble a date-time from the fourteen digit characters of a compact
iCal date string, failing on a non-digit or an invalid calendar date. -/
def mkNaive (y1 y2 y3 y4 mo1 mo2 d1 d2 h1 h2 mi1 mi2 s1 s2 : Char) :
    Option NaiveDT :=
  if [y1, y2, y3, y4, mo1, mo2, d1, d2, h1, h2, mi1, mi2, s1, s2].all Char.isDigit then
    let dt : NaiveDT :=
      { year := nat4 y1 y2 y3 y4
        month := nat2 mo1 mo2
        day := nat2 d1 d2
        hour := nat2 h1 h2
        minute := nat2 mi1 mi2
        second := nat2 s1 s2 }
    if validDT dt then some dt else none
  else
    none

/-- Model of chrono `datetime_from_str` with the format `%Y%m%dT%H%M%S`
(and, when `zSuffix` is set, with the format `%Y%m%dT%H%M%SZ`): fixed
width digit fields, a literal separator, mandatory full consumption of
the input, calendar validity checks. -/
def parseCompact (zSuffix : Bool) (s : String) : Option NaiveDT :=
  match zSuffix, s.data with
  | false, [y1,y2,y3,y4,mo1,mo2,d1,d2,'T',h1,h2,mi1,mi2,s1,s2] =>
      mkNaive y1 y2 y3 y4 mo1 mo2 d1 d2 h1 h2 mi1 mi2 s1 s2
  | true, [y1,y2,y3,y4,mo1,mo2,d1,d2,'T',h1,h2,mi1,mi2,s1,s2,'Z'] =>
      mkNaive y1 y2 y3 y4 mo1 mo2 d1 d2 h1 h2 mi1 mi2 s1 s2
  | _, _ => none

/-- A named time zone (model of a chrono-tz `Tz` value): converting a
local date-time to UTC may fail or be ambiguous, in which case the
conversion yields none (chrono `from_local_datetime(..).single()`). -/
structure Tz where
  localToUtc : NaiveDT → Option NaiveDT

/-- The zone database (model of `chrono_tz::Tz::from_str`): resolves a
zone name to a zone, or to none when the name is unknown. -/
def TzDb : Type := String → Option Tz

/-- The empty zone database: no name resolves. -/
def emptyTzDb : TzDb := fun _ => none

/-- One property of a parsed component (the ical crate `Property`
record): a name, optional parameters and an optional value. -/
structure Property where
  name : String
  params : Option (List (String × List String))
  value : Option String
deriving DecidableEq, Repr

/-- First value of the first `TZID` parameter of a property, exactly as
`parse_date_time_from_property` extracts it. -/
def tzidOf (p : Property) : Option String :=
  p.params.bind (fun params =>
    params.findSome? (fun nv => if nv.1 == "TZID" then nv.2.head? else none))

/-- Embedding of `parse_date_time_from_property` (src/ical/parser.rs):
try the UTC-suffixed format, then - when a `TZID` parameter resolves in
the zone database - the bare format interpreted in that zone, then the
bare format interpreted as UTC. -/
def parse_date_time_from_property (db : TzDb) (property : Property) :
    Option NaiveDT :=
  let tzid : Option String := tzidOf property
  match property.value with
  | none => none
  | some s =>
    match parseCompact true s with
    | some t => some t
    | none =>
      match (tzid.bind db).bind
          (fun tz => (parseCompact false s).bind tz.localToUtc) with
      | some t => some t
      | none => parseCompact false s

/-- Components of an already-lexed calendar document: a to-do (the ical
crate `IcalTodo`; only its property list is consumed by the source). -/
structure IcalTodo where
  properties : List Property
deriving DecidableEq, Repr

/-- An event component (the ical crate `IcalEvent`; only its property
list is consumed by the source). -/
structure IcalEvent where
  properties : List Property
deriving DecidableEq, Repr

/-- A journal component (the ical crate `IcalJournal`; the source only
counts them). -/
structure IcalJournal where
  properties : List Property
deriving DecidableEq, Repr

/-- A parsed top-level calendar document (the ical crate
`IcalCalendar`; the collections the source consults). -/
structure IcalCalendar where
  properties : List Property
  events : List IcalEvent
  todos : List IcalTodo
  journals : List IcalJournal
deriving DecidableEq, Repr

/-- Modelled from the spec: an opaque token for a remote revision
marker (item.rs `VersionTag`; its definition is not among the provided
sources). -/
structure VersionTag where
  tag : String
deriving DecidableEq, Repr

/-- Modelled from the spec: the synchronization state attached to every
item (the `SyncStatus` enum is not among the provided sources; the spec
requires at least `NotSynced` and `Synced(VersionTag)`). -/
inductive SyncStatus where
  | NotSynced : SyncStatus
  | Synced : VersionTag → SyncStatus
deriving DecidableEq, Repr

/-- Modelled from the spec: the completion state of a task (task.rs is
not among the provided sources; the spec defines `Uncompleted` and
`Completed(optional completion instant)`). -/
inductive CompletionStatus where
  | Uncompleted : CompletionStatus
  | Completed : Option NaiveDT → CompletionStatus
deriving DecidableEq, Repr

/-- Modelled from the spec: the Task entity (task.rs is not among the
provided sources; fields follow spec §3 and the positional arguments of
`Task::new_with_parameters` as called in parser.rs). -/
structure Task where
  name : String
  uid : String
  url : String
  completion_status : CompletionStatus
  sync_status : SyncStatus
  creation_date : Option NaiveDT
  last_modified : NaiveDT
  ical_prod_id : String
  extra_parameters : List Property
deriving DecidableEq, Repr

/-- The Event entity (src/event.rs); the Rust fields `start` and `end`
are named `dtstart` and `dtend` here because `end` is a Lean keyword. -/
structure Event where
  url : String
  uid : String
  name : String
  description : Option String
  sync_status : SyncStatus
  ical_prod_id : String
  creation_date : Option NaiveDT
  last_modified : NaiveDT
  dtstart : NaiveDT
  dtend : NaiveDT
  extra_parameters : List Property
deriving DecidableEq, Repr

/-- The Item tagged union (src/item.rs): an event or a task. -/
inductive Item where
  | Event : Event → Item
  | Task : Task → Item
deriving DecidableEq, Repr

/-- Embedding of `Item::is_event`. -/
def Item.is_event : Item → Bool
  | Item.Event _ => true
  | _ => false

/-- Embedding of `Item::is_task`. -/
def Item.is_task : Item → Bool
  | Item.Task _ => true
  | _ => false

/-- Embedding of `Item::unwrap_task`: the inner task, or - modelling
the Rust panic - the panic message as an error. -/
def Item.unwrap_task : Item → Except String KitchenFridge.Task
  | Item.Task t => Except.ok t
  | _ => Except.error ("Not a task")

/-- Embedding of `Item::unwrap_task_mut` (identical selection logic to
`unwrap_task`; mutability is irrelevant in the pure model). -/
def Item.unwrap_task_mut : Item → Except String KitchenFridge.Task
  | Item.Task t => Except.ok t
  | _ => Except.error ("Not a task")

/-- Decides whether an `Except` result is a success. -/
def exOk {ε α : Type} : Except ε α → Bool
  | Except.ok _ => true
  | Except.error _ => false

/-- The missing-SUMMARY error message of the builders. -/
def missingNameErr (item_url : String) : String :=
  "Missing name for item " ++ item_url

/-- The missing-UID error message of the builders. -/
def missingUidErr (item_url : String) : String :=
  "Missing UID for item " ++ item_url

/-- The missing-DTSTAMP error message of the builders. -/
def missingLastModifiedErr (item_url : String) : String :=
  "Missing DTSTAMP for item " ++ item_url ++ ", but this is required by RFC5545"

/-- The missing-DTSTART error message of the event builder. -/
def missingStartErr (item_url : String) : String :=
  "Missing DTSTART for item " ++ item_url

/-- The missing-DTEND error message of the event builder. -/
def missingEndErr (item_url : String) : String :=
  "Missing DTEND for item " ++ item_url

/-- In-progress state of the task builder: the mutable locals of
`parse_task` before the validation section. -/
structure TaskScan where
  name : Option String
  uid : Option String
  completed : Bool
  last_modified : Option NaiveDT
  completion_date : Option NaiveDT
  creation_date : Option NaiveDT
  extra_parameters : List Property
deriving DecidableEq, Repr

/-- Initial task-builder state. -/
def initTaskScan : TaskScan :=
  { name := none, uid := none, completed := false, last_modified := none
    completion_date := none, creation_date := none, extra_parameters := [] }

/-- One iteration of the property loop of `parse_task`
(src/ical/parser.rs): route a property into the builder state. -/
def taskStep (db : TzDb) (st : TaskScan) (prop : Property) : TaskScan :=
  if prop.name == "SUMMARY" then { st with name := prop.value }
  else if prop.name == "UID" then { st with uid := prop.value }
  else if prop.name == "DTSTAMP" then
    { st with last_modified := parse_date_time_from_property db prop }
  else if prop.name == "LAST-MODIFIED" then
    { st with last_modified := parse_date_time_from_property db prop }
  else if prop.name == "COMPLETED" then
    { st with completion_date := parse_date_time_from_property db prop }
  else if prop.name == "CREATED" then
    { st with creation_date := parse_date_time_from_property db prop }
  else if prop.name == "STATUS" then
    (if prop.value == some "COMPLETED" then { st with completed := true } else st)
  else
    { st with extra_parameters := st.extra_parameters ++ [prop] }

/-- The whole property loop of `parse_task`. -/
def scanTask (db : TzDb) (props : List Property) : TaskScan :=
  props.foldl (taskStep db) initTaskScan

/-- Emission condition of the `log::warn` call in `parse_task`,
reached when all mandatory fields are present but the STATUS is not
COMPLETED while a COMPLETED timestamp parsed successfully. -/
def task_warns (db : TzDb) (todo : IcalTodo) : Bool :=
  (scanTask db todo.properties).name.isSome &&
    (scanTask db todo.properties).uid.isSome &&
    (scanTask db todo.properties).last_modified.isSome &&
    !(scanTask db todo.properties).completed &&
    (scanTask db todo.properties).completion_date.isSome

/-- Embedding of `parse_task` (src/ical/parser.rs): scan the
properties, then validate the mandatory fields in source order and
assemble the Task. -/
def parse_task (db : TzDb) (todo : IcalTodo) (item_url : String)
    (sync_status : SyncStatus) (ical_prod_id : String) :
    Except String Task :=
  match (scanTask db todo.properties).name with
  | none => Except.error (missingNameErr item_url)
  | some name =>
    match (scanTask db todo.properties).uid with
    | none => Except.error (missingUidErr item_url)
    | some uid =>
      match (scanTask db todo.properties).last_modified with
      | none => Except.error (missingLastModifiedErr item_url)
      | some last_modified =>
        Except.ok
          { name := name, uid := uid, url := item_url
            completion_status :=
              if (scanTask db todo.properties).completed
              then CompletionStatus.Completed (scanTask db todo.properties).completion_date
              else CompletionStatus.Uncompleted
            sync_status := sync_status
            creation_date := (scanTask db todo.properties).creation_date
            last_modified := last_modified
            ical_prod_id := ical_prod_id
            extra_parameters := (scanTask db todo.properties).extra_parameters }

/-- In-progress state of the event builder: the mutable locals of
`parse_event` before the validation section. -/
structure EventScan where
  name : Option String
  description : Option String
  uid : Option String
  last_modified : Option NaiveDT
  creation_date : Option NaiveDT
  dtstart : Option NaiveDT
  dtend : Option NaiveDT
  extra_parameters : List Property
deriving DecidableEq, Repr

/-- Initial event-builder state. -/
def initEventScan : EventScan :=
  { name := none, description := none, uid := none, last_modified := none
    creation_date := none, dtstart := none, dtend := none, extra_parameters := [] }

/-- One iteration of the property loop of `parse_event`
(src/ical/parser.rs). -/
def eventStep (db : TzDb) (st : EventScan) (prop : Property) : EventScan :=
  if prop.name == "SUMMARY" then { st with name := prop.value }
  else if prop.name == "DESCRIPTION" then { st with description := prop.value }
  else if prop.name == "UID" then { st with uid := prop.value }
  else if prop.name == "DTSTAMP" then
    { st with last_modified := parse_date_time_from_property db prop }
  else if prop.name == "DTSTART" then
    { st with dtstart := parse_date_time_from_property db prop }
  else if prop.name == "DTEND" then
    { st with dtend := parse_date_time_from_property db prop }
  else if prop.name == "LAST-MODIFIED" then
    { st with last_modified := parse_date_time_from_property db prop }
  else if prop.name == "CREATED" then
    { st with creation_date := parse_date_time_from_property db prop }
  else
    { st with extra_parameters := st.extra_parameters ++ [prop] }

/-- The whole property loop of `parse_event`. -/
def scanEvent (db : TzDb) (props : List Property) : EventScan :=
  props.foldl (eventStep db) initEventScan

/-- Embedding of `parse_event` (src/ical/parser.rs). -/
def parse_event (db : TzDb) (event : IcalEvent) (item_url : String)
    (sync_status : SyncStatus) (ical_prod_id : String) :
    Except String Event :=
  match (scanEvent db event.properties).name with
  | none => Except.error (missingNameErr item_url)
  | some name =>
    match (scanEvent db event.properties).uid with
    | none => Except.error (missingUidErr item_url)
    | some uid =>
      match (scanEvent db event.properties).last_modified with
      | none => Except.error (missingLastModifiedErr item_url)
      | some last_modified =>
        match (scanEvent db event.properties).dtstart with
        | none => Except.error (missingStartErr item_url)
        | some dtstart =>
          match (scanEvent db event.properties).dtend with
          | none => Except.error (missingEndErr item_url)
          | some dtend =>
            Except.ok
              { url := item_url, uid := uid, name := name
                description := (scanEvent db event.properties).description
                sync_status := sync_status
                ical_prod_id := ical_prod_id
                creation_date := (scanEvent db event.properties).creation_date
                last_modified := last_modified
                dtstart := dtstart
                dtend := dtend
                extra_parameters := (scanEvent db event.properties).extra_parameters }

/-- Embedding of `extract_ical_prod_id` (src/ical/parser.rs): the value
of the first PRODID property, which may itself be absent. -/
def extract_ical_prod_id (item : IcalCalendar) : Option String :=
  match item.properties.find? (fun p => p.name == "PRODID") with
  | some p => p.value
  | none => none

/-- Modelled from the spec: the locally-defined default product
identifier substituted when a document has no PRODID
(`super::default_prod_id` lives in src/ical/mod.rs, which is not among
the provided sources; its exact value is irrelevant to every claim). -/
def default_prod_id : String := "-//kitchen-fridge default PRODID"

/-- The component picked by the disambiguator (`CurrentType` in
src/ical/parser.rs). -/
inductive CurrentType where
  | event : IcalEvent → CurrentType
  | todo : IcalTodo → CurrentType
deriving DecidableEq, Repr

/-- The rejection message of the component disambiguator. -/
def singleTypeErr : String := "Only a single TODO or a single EVENT is supported"

/-- Embedding of `assert_single_type` (src/ical/parser.rs): accept
exactly one event and nothing else, or exactly one to-do and nothing
else. -/
def assert_single_type (item : IcalCalendar) : Except String CurrentType :=
  let n_events := item.events.length
  let n_todos := item.todos.length
  let n_journals := item.journals.length
  if n_events = 1 then
    if n_todos ≠ 0 ∨ n_journals ≠ 0 then Except.error singleTypeErr
    else
      match item.events.head? with
      | some e => Except.ok (CurrentType.event e)
      | none => Except.error singleTypeErr
  else if n_todos = 1 then
    if n_events ≠ 0 ∨ n_journals ≠ 0 then Except.error singleTypeErr
    else
      match item.todos.head? with
      | some t => Except.ok (CurrentType.todo t)
      | none => Except.error singleTypeErr
  else
    Except.error singleTypeErr

/-- Does the second yield of the document reader exist and parse
successfully?  This is the source's
`reader.next().map(|r| r.is_ok()) == Some(true)` check. -/
def secondOk (docs : List (Except String IcalCalendar)) : Bool :=
  match docs.drop 1 with
  | Except.ok _ :: _ => true
  | _ => false

/-- Embedding of `parse` (src/ical/parser.rs).  The ical document
reader is modelled as the list of results its successive `next()` calls
yield: the source consumes the first yield, builds the item, then
consults exactly one further yield to reject multiple documents. -/
def parse (db : TzDb) (docs : List (Except String IcalCalendar))
    (item_url : String) (sync_status : SyncStatus) : Except String Item :=
  match docs.head? with
  | none => Except.error ("Invalid iCal data to parse for item " ++ item_url)
  | some (Except.error err) =>
    Except.error ("Unable to parse iCal data for item " ++ item_url ++ ": " ++ err)
  | some (Except.ok parsed_item) =>
    let ical_prod_id := (extract_ical_prod_id parsed_item).getD default_prod_id
    match assert_single_type parsed_item with
    | Except.error e => Except.error e
    | Except.ok (CurrentType.event event) =>
      match parse_event db event item_url sync_status ical_prod_id with
      | Except.error e => Except.error e
      | Except.ok ev =>
        if secondOk docs then
          Except.error ("Parsing multiple items are not supported")
        else Except.ok (Item.Event ev)
    | Except.ok (CurrentType.todo todo) =>
      match parse_task db todo item_url sync_status ical_prod_id with
      | Except.error e => Except.error e
      | Except.ok t =>
        if secondOk docs then
          Except.error ("Parsing multiple items are not supported")
        else Except.ok (Item.Task t)

/-- Has the property list a STATUS property with value COMPLETED? -/
def hasStatusCompleted (props : List Property) : Bool :=
  props.any (fun p => p.name == "STATUS" && p.value == some "COMPLETED")

/-- Is this one of the two property names that feed `last_modified`? -/
def isLastModifiedProp (p : Property) : Bool :=
  p.name == "DTSTAMP" || p.name == "LAST-MODIFIED"

/-- Parsed value of the COMPLETED property occurring last in document
order, if any. -/
def completionDateOf (db : TzDb) (props : List Property) : Option NaiveDT :=
  match props.reverse.find? (fun p => p.name == "COMPLETED") with
  | some p => parse_date_time_from_property db p
  | none => none

/-- The recognized property names of the task builder. -/
def recognizedTask (n : String) : Bool :=
  n == "SUMMARY" || n == "UID" || n == "DTSTAMP" || n == "LAST-MODIFIED" ||
    n == "COMPLETED" || n == "CREATED" || n == "STATUS"

/-- The recognized property names of the event builder. -/
def recognizedEvent (n : String) : Bool :=
  n == "SUMMARY" || n == "DESCRIPTION" || n == "UID" || n == "DTSTAMP" ||
    n == "DTSTART" || n == "DTEND" || n == "LAST-MODIFIED" || n == "CREATED"

/-- Does the property list contain a property of the given name? -/
def hasProp (props : List Property) (n : String) : Bool :=
  props.any (fun p => p.name == n)

/-- A concrete uncompleted to-do used to instantiate the theorems: it
carries both DTSTAMP and LAST-MODIFIED plus one unrecognized property. -/
def sampleTodo : IcalTodo :=
  { properties :=
      [ { name := "UID", params := none, value := some "uid-1" }
      , { name := "SUMMARY", params := none, value := some "Call Mom" }
      , { name := "DTSTAMP", params := none, value := some "20210321T001600" }
      , { name := "LAST-MODIFIED", params := none, value := some "20210321T001700" }
      , { name := "X-FOO", params := none, value := some "bar" } ] }

/-- The task the parser produces from `sampleTodo`. -/
def sampleTask : Task :=
  { name := "Call Mom", uid := "uid-1", url := "http://some.id/for/testing"
    completion_status := CompletionStatus.Uncompleted
    sync_status := SyncStatus.NotSynced
    creation_date := none
    last_modified := ⟨2021, 3, 21, 0, 17, 0⟩
    ical_prod_id := "PRODID-test"
    extra_parameters := [ { name := "X-FOO", params := none, value := some "bar" } ] }

/-- A concrete completed to-do: STATUS is COMPLETED and a COMPLETED
timestamp is present. -/
def sampleCompletedTodo : IcalTodo :=
  { properties :=
      [ { name := "SUMMARY", params := none, value := some "Clean up" }
      , { name := "UID", params := none, value := some "uid-2" }
      , { name := "DTSTAMP", params := none, value := some "20210402T081557" }
      , { name := "COMPLETED", params := none, value := some "20210402T081557" }
      , { name := "STATUS", params := none, value := some "COMPLETED" } ] }

/-- The task the parser produces from `sampleCompletedTodo`. -/
def sampleCompletedTask : Task :=
  { name := "Clean up", uid := "uid-2", url := "http://some.id/for/testing"
    completion_status := CompletionStatus.Completed (some ⟨2021, 4, 2, 8, 15, 57⟩)
    sync_status := SyncStatus.NotSynced
    creation_date := none
    last_modified := ⟨2021, 4, 2, 8, 15, 57⟩
    ical_prod_id := "PRODID-test"
    extra_parameters := [] }

/-- A concrete calendar document wrapping `sampleTodo`. -/
def sampleCal : IcalCalendar :=
  { properties := [ { name := "PRODID", params := none, value := some "PRODID-test" } ]
    events := [], todos := [sampleTodo], journals := [] }

/-- The three-step precedence exactly as the specification words it
(first success wins): UTC-suffixed parse, else local parse in the
resolved named zone converted to UTC, else bare parse treated as UTC. -/
def specTemporalNormalize (db : TzDb) (tzid : Option String) (s : String) :
    Option NaiveDT :=
  (parseCompact true s).orElse (fun _ =>
    ((tzid.bind db).bind
        (fun tz => (parseCompact false s).bind tz.localToUtc)).orElse (fun _ =>
      parseCompact false s))

/-- Claim C1: for every raw value string and optional TZID parameter the
temporal normalizer applies exactly the three-step precedence, first
success wins, and yields none when no step succeeds (absent value
included); in particular "20210402T081557" with no TZID and
"20210402T081557Z" both yield the instant 2021-04-02T08:15:57Z. -/
theorem C1_temporal_normalizer_three_step (db : TzDb) (p : Property) :
    parse_date_time_from_property db p =
      (p.value.bind (fun s => specTemporalNormalize db (tzidOf p) s)) ∧
    parse_date_time_from_property db
        { name := "DTSTAMP", params := none, value := some "20210402T081557" } =
      some ⟨2021, 4, 2, 8, 15, 57⟩ ∧
    parse_date_time_from_property db
        { name := "DTSTAMP", params := none, value := some "20210402T081557Z" } =
      some ⟨2021, 4, 2, 8, 15, 57⟩ := by
  refine ⟨?_, ?_, ?_⟩
  · unfold parse_date_time_from_property specTemporalNormalize
    cases hv : p.value with
    | none => rfl
    | some s =>
      cases h1 : parseCompact true s with
      | some t => simp [Option.orElse, h1]
      | none =>
        cases h2 : ((tzidOf p).bind db).bind
            (fun tz => (parseCompact false s).bind tz.localToUtc) with
        | some t => simp [Option.orElse, h1, h2]
        | none => simp [Option.orElse, h1, h2]
  · rfl
  · rfl

/-- Generic overwrite behaviour of a property fold: a field that each
step either overwrites (on selected properties) or keeps ends up
holding the update of the last selected property. -/
theorem foldl_overwrite_eq {σ α : Type} (step : σ → Property → σ) (f : σ → α)
    (sel : Property → Bool) (upd : Property → α)
    (hstep : ∀ st p, f (step st p) = if sel p then upd p else f st) :
    ∀ (props : List Property) (st : σ),
      f (props.foldl step st) =
        (match props.reverse.find? sel with
         | some p => upd p
         | none => f st) := by
  intro props
  induction props with
  | nil => intro st; rfl
  | cons p ps ih =>
    intro st
    rw [List.foldl_cons, ih, List.reverse_cons, List.find?_append]
    cases hf : ps.reverse.find? sel with
    | some q => simp [Option.or]
    | none =>
      cases hsel : sel p with
      | true =>
        rw [List.find?_cons_of_pos _ hsel]
        simp [Option.or, hstep, hsel]
      | false =>
        rw [List.find?_cons_of_neg _ (by simp [hsel])]
        simp [Option.or, hstep, hsel]

/-- Generic accumulation behaviour of a property fold: a list field to
which each step appends exactly the selected properties ends up holding
the filtered property list. -/
theorem foldl_accum_eq {σ : Type} (step : σ → Property → σ) (f : σ → List Property)
    (sel : Property → Bool)
    (hstep : ∀ st p, f (step st p) = f st ++ (if sel p then [p] else [])) :
    ∀ (props : List Property) (st : σ),
      f (props.foldl step st) = f st ++ props.filter sel := by
  intro props
  induction props with
  | nil => intro st; simp
  | cons p ps ih =>
    intro st
    rw [List.foldl_cons, ih, hstep, List.filter_cons]
    cases hsel : sel p <;> simp [hsel]

/-- Generic flag behaviour of a property fold: a boolean field that
each step leaves true once set, and sets exactly on selected
properties, ends up true iff some property is selected. -/
theorem foldl_flag_eq {σ : Type} (step : σ → Property → σ) (f : σ → Bool)
    (sel : Property → Bool)
    (hstep : ∀ st p, f (step st p) = (f st || sel p)) :
    ∀ (props : List Property) (st : σ),
      f (props.foldl step st) = (f st || props.any sel) := by
  intro props
  induction props with
  | nil => intro st; simp
  | cons p ps ih =>
    intro st
    rw [List.foldl_cons, ih, hstep, List.any_cons, Bool.or_assoc]

/-- Inserting an unselected element in the middle of a list does not
change the last selected element. -/
theorem find?_middle_skip {α : Type} (sel : α → Bool) (q : α) (hq : sel q = false)
    (l₁ l₂ : List α) :
    ((l₁ ++ q :: l₂).reverse).find? sel = ((l₁ ++ l₂).reverse).find? sel := by
  have hq' : ¬ sel q = true := by simp [hq]
  simp only [List.reverse_append, List.reverse_cons, List.find?_append,
    List.append_assoc]
  rw [List.find?_cons_of_neg _ hq', List.find?_nil]
  cases h2 : (l₂.reverse).find? sel <;> simp [Option.or]

/-- The task-builder step updates the name field exactly on SUMMARY. -/
theorem taskStep_name (db : TzDb) (st : TaskScan) (p : Property) :
    (taskStep db st p).name =
      if p.name == "SUMMARY" then p.value else st.name := by
  unfold taskStep; split_ifs <;> simp_all

/-- The task-builder step updates the uid field exactly on UID. -/
theorem taskStep_uid (db : TzDb) (st : TaskScan) (p : Property) :
    (taskStep db st p).uid =
      if p.name == "UID" then p.value else st.uid := by
  unfold taskStep; split_ifs <;> simp_all

/-- The task-builder step updates the last-modified field exactly on
DTSTAMP and LAST-MODIFIED. -/
theorem taskStep_lm (db : TzDb) (st : TaskScan) (p : Property) :
    (taskStep db st p).last_modified =
      if isLastModifiedProp p then parse_date_time_from_property db p
      else st.last_modified := by
  unfold taskStep isLastModifiedProp; split_ifs <;> simp_all

/-- The task-builder step updates the completion date exactly on
COMPLETED. -/
theorem taskStep_completion (db : TzDb) (st : TaskScan) (p : Property) :
    (taskStep db st p).completion_date =
      if p.name == "COMPLETED" then parse_date_time_from_property db p
      else st.completion_date := by
  unfold taskStep; split_ifs <;> simp_all

/-- The task-builder step sets the completed flag exactly on a STATUS
property carrying COMPLETED. -/
theorem taskStep_completed (db : TzDb) (st : TaskScan) (p : Property) :
    (taskStep db st p).completed =
      (st.completed || (p.name == "STATUS" && p.value == some "COMPLETED")) := by
  unfold taskStep; split_ifs <;> simp_all

/-- The task-builder step appends to the preserved list exactly the
unrecognized properties. -/
theorem taskStep_extra (db : TzDb) (st : TaskScan) (p : Property) :
    (taskStep db st p).extra_parameters =
      st.extra_parameters ++ (if !(recognizedTask p.name) then [p] else []) := by
  unfold taskStep recognizedTask; split_ifs <;> simp_all

/-- Closed form of the scanned name field. -/
theorem scanTask_name (db : TzDb) (props : List Property) :
    (scanTask db props).name =
      (match props.reverse.find? (fun p => p.name == "SUMMARY") with
       | some p => p.value
       | none => none) :=
  foldl_overwrite_eq (taskStep db) TaskScan.name _ Property.value
    (fun st p => taskStep_name db st p) props initTaskScan

/-- Closed form of the scanned uid field. -/
theorem scanTask_uid (db : TzDb) (props : List Property) :
    (scanTask db props).uid =
      (match props.reverse.find? (fun p => p.name == "UID") with
       | some p => p.value
       | none => none) :=
  foldl_overwrite_eq (taskStep db) TaskScan.uid _ Property.value
    (fun st p => taskStep_uid db st p) props initTaskScan

/-- Closed form of the scanned last-modified field: the parse of the
last DTSTAMP or LAST-MODIFIED property. -/
theorem scanTask_lm (db : TzDb) (props : List Property) :
    (scanTask db props).last_modified =
      (match props.reverse.find? isLastModifiedProp with
       | some p => parse_date_time_from_property db p
       | none => none) :=
  foldl_overwrite_eq (taskStep db) TaskScan.last_modified _
    (parse_date_time_from_property db) (fun st p => taskStep_lm db st p)
    props initTaskScan

/-- Closed form of the scanned completion date. -/
theorem scanTask_completion (db : TzDb) (props : List Property) :
    (scanTask db props).completion_date = completionDateOf db props := by
  unfold completionDateOf
  exact foldl_overwrite_eq (taskStep db) TaskScan.completion_date _
    (parse_date_time_from_property db) (fun st p => taskStep_completion db st p)
    props initTaskScan

/-- Closed form of the scanned completed flag. -/
theorem scanTask_completed (db : TzDb) (props : List Property) :
    (scanTask db props).completed = hasStatusCompleted props := by
  unfold hasStatusCompleted
  have h := foldl_flag_eq (taskStep db) TaskScan.completed
    (fun p => p.name == "STATUS" && p.value == some "COMPLETED")
    (fun st p => taskStep_completed db st p) props initTaskScan
  simpa using h

/-- Closed form of the scanned preserved-property list. -/
theorem scanTask_extra (db : TzDb) (props : List Property) :
    (scanTask db props).extra_parameters =
      props.filter (fun p => !(recognizedTask p.name)) := by
  have h := foldl_accum_eq (taskStep db) TaskScan.extra_parameters
    (fun p => !(recognizedTask p.name))
    (fun st p => taskStep_extra db st p) props initTaskScan
  simpa using h

/-- The event-builder step updates the name field exactly on SUMMARY. -/
theorem eventStep_name (db : TzDb) (st : EventScan) (p : Property) :
    (eventStep db st p).name =
      if p.name == "SUMMARY" then p.value else st.name := by
  unfold eventStep; split_ifs <;> simp_all

/-- The event-builder step updates the uid field exactly on UID. -/
theorem eventStep_uid (db : TzDb) (st : EventScan) (p : Property) :
    (eventStep db st p).uid =
      if p.name == "UID" then p.value else st.uid := by
  unfold eventStep; split_ifs <;> simp_all

/-- The event-builder step updates the last-modified field exactly on
DTSTAMP and LAST-MODIFIED. -/
theorem eventStep_lm (db : TzDb) (st : EventScan) (p : Property) :
    (eventStep db st p).last_modified =
      if isLastModifiedProp p then parse_date_time_from_property db p
      else st.last_modified := by
  unfold eventStep isLastModifiedProp; split_ifs <;> simp_all

/-- The event-builder step updates the start field exactly on DTSTART. -/
theorem eventStep_dtstart (db : TzDb) (st : EventScan) (p : Property) :
    (eventStep db st p).dtstart =
      if p.name == "DTSTART" then parse_date_time_from_property db p
      else st.dtstart := by
  unfold eventStep; split_ifs <;> simp_all

/-- The event-builder step updates the end field exactly on DTEND. -/
theorem eventStep_dtend (db : TzDb) (st : EventScan) (p : Property) :
    (eventStep db st p).dtend =
      if p.name == "DTEND" then parse_date_time_from_property db p
      else st.dtend := by
  unfold eventStep; split_ifs <;> simp_all

/-- The event-builder step appends to the preserved list exactly the
unrecognized properties. -/
theorem eventStep_extra (db : TzDb) (st : EventScan) (p : Property) :
    (eventStep db st p).extra_parameters =
      st.extra_parameters ++ (if !(recognizedEvent p.name) then [p] else []) := by
  unfold eventStep recognizedEvent; split_ifs <;> simp_all

/-- Closed form of the event scan's name field. -/
theorem scanEvent_name (db : TzDb) (props : List Property) :
    (scanEvent db props).name =
      (match props.reverse.find? (fun p => p.name == "SUMMARY") with
       | some p => p.value
       | none => none) :=
  foldl_overwrite_eq (eventStep db) EventScan.name _ Property.value
    (fun st p => eventStep_name db st p) props initEventScan

/-- Closed form of the event scan's uid field. -/
theorem scanEvent_uid (db : TzDb) (props : List Property) :
    (scanEvent db props).uid =
      (match props.reverse.find? (fun p => p.name == "UID") with
       | some p => p.value
       | none => none) :=
  foldl_overwrite_eq (eventStep db) EventScan.uid _ Property.value
    (fun st p => eventStep_uid db st p) props initEventScan

/-- Closed form of the event scan's last-modified field. -/
theorem scanEvent_lm (db : TzDb) (props : List Property) :
    (scanEvent db props).last_modified =
      (match props.reverse.find? isLastModifiedProp with
       | some p => parse_date_time_from_property db p
       | none => none) :=
  foldl_overwrite_eq (eventStep db) EventScan.last_modified _
    (parse_date_time_from_property db) (fun st p => eventStep_lm db st p)
    props initEventScan

/-- Closed form of the event scan's start field. -/
theorem scanEvent_dtstart (db : TzDb) (props : List Property) :
    (scanEvent db props).dtstart =
      (match props.reverse.find? (fun p => p.name == "DTSTART") with
       | some p => parse_date_time_from_property db p
       | none => none) :=
  foldl_overwrite_eq (eventStep db) EventScan.dtstart _
    (parse_date_time_from_property db) (fun st p => eventStep_dtstart db st p)
    props initEventScan

/-- Closed form of the event scan's end field. -/
theorem scanEvent_dtend (db : TzDb) (props : List Property) :
    (scanEvent db props).dtend =
      (match props.reverse.find? (fun p => p.name == "DTEND") with
       | some p => parse_date_time_from_property db p
       | none => none) :=
  foldl_overwrite_eq (eventStep db) EventScan.dtend _
    (parse_date_time_from_property db) (fun st p => eventStep_dtend db st p)
    props initEventScan

/-- Closed form of the event scan's preserved-property list. -/
theorem scanEvent_extra (db : TzDb) (props : List Property) :
    (scanEvent db props).extra_parameters =
      props.filter (fun p => !(recognizedEvent p.name)) := by
  have h := foldl_accum_eq (eventStep db) EventScan.extra_parameters
    (fun p => !(recognizedEvent p.name))
    (fun st p => eventStep_extra db st p) props initEventScan
  simpa using h

/-- The task builder succeeds exactly when the three mandatory fields
survived the scan. -/
theorem parse_task_isOk (db : TzDb) (todo : IcalTodo) (url : String)
    (ss : SyncStatus) (pid : String) :
    exOk (parse_task db todo url ss pid) =
      ((scanTask db todo.properties).name.isSome &&
       (scanTask db todo.properties).uid.isSome &&
       (scanTask db todo.properties).last_modified.isSome) := by
  unfold parse_task
  cases h1 : (scanTask db todo.properties).name with
  | none => simp [exOk, h1]
  | some n =>
    cases h2 : (scanTask db todo.properties).uid with
    | none => simp [exOk, h1, h2]
    | some u =>
      cases h3 : (scanTask db todo.properties).last_modified with
      | none => simp [exOk, h1, h2, h3]
      | some lm => simp [exOk, h1, h2, h3]

/-- The event builder succeeds exactly when the five mandatory fields
survived the scan. -/
theorem parse_event_isOk (db : TzDb) (ev : IcalEvent) (url : String)
    (ss : SyncStatus) (pid : String) :
    exOk (parse_event db ev url ss pid) =
      ((scanEvent db ev.properties).name.isSome &&
       (scanEvent db ev.properties).uid.isSome &&
       (scanEvent db ev.properties).last_modified.isSome &&
       (scanEvent db ev.properties).dtstart.isSome &&
       (scanEvent db ev.properties).dtend.isSome) := by
  unfold parse_event
  cases h1 : (scanEvent db ev.properties).name with
  | none => simp [exOk, h1]
  | some n =>
    cases h2 : (scanEvent db ev.properties).uid with
    | none => simp [exOk, h1, h2]
    | some u =>
      cases h3 : (scanEvent db ev.properties).last_modified with
      | none => simp [exOk, h1, h2, h3]
      | some lm =>
        cases h4 : (scanEvent db ev.properties).dtstart with
        | none => simp [exOk, h1, h2, h3, h4]
        | some s =>
          cases h5 : (scanEvent db ev.properties).dtend with
          | none => simp [exOk, h1, h2, h3, h4, h5]
          | some e => simp [exOk, h1, h2, h3, h4, h5]

/-- Anatomy of a successful task build: every field of the produced
task in terms of the final scan state. -/
theorem parse_task_ok_fields (db : TzDb) (todo : IcalTodo) (url : String)
    (ss : SyncStatus) (pid : String) (t : Task)
    (h : parse_task db todo url ss pid = Except.ok t) :
    (scanTask db todo.properties).name = some t.name ∧
    (scanTask db todo.properties).uid = some t.uid ∧
    (scanTask db todo.properties).last_modified = some t.last_modified ∧
    t.url = url ∧ t.sync_status = ss ∧ t.ical_prod_id = pid ∧
    t.creation_date = (scanTask db todo.properties).creation_date ∧
    t.completion_status =
      (if (scanTask db todo.properties).completed
       then CompletionStatus.Completed (scanTask db todo.properties).completion_date
       else CompletionStatus.Uncompleted) ∧
    t.extra_parameters = (scanTask db todo.properties).extra_parameters := by
  unfold parse_task at h
  cases h1 : (scanTask db todo.properties).name with
  | none => rw [h1] at h; exact absurd h (by simp)
  | some n =>
    rw [h1] at h
    cases h2 : (scanTask db todo.properties).uid with
    | none => rw [h2] at h; exact absurd h (by simp)
    | some u =>
      rw [h2] at h
      cases h3 : (scanTask db todo.properties).last_modified with
      | none => rw [h3] at h; exact absurd h (by simp)
      | some lm =>
        rw [h3] at h
        simp only [Except.ok.injEq] at h
        subst h
        simp

/-- Anatomy of a successful event build. -/
theorem parse_event_ok_fields (db : TzDb) (ev : IcalEvent) (url : String)
    (ss : SyncStatus) (pid : String) (e : Event)
    (h : parse_event db ev url ss pid = Except.ok e) :
    (scanEvent db ev.properties).name = some e.name ∧
    (scanEvent db ev.properties).uid = some e.uid ∧
    (scanEvent db ev.properties).last_modified = some e.last_modified ∧
    (scanEvent db ev.properties).dtstart = some e.dtstart ∧
    (scanEvent db ev.properties).dtend = some e.dtend ∧
    e.url = url ∧ e.sync_status = ss ∧ e.ical_prod_id = pid ∧
    e.description = (scanEvent db ev.properties).description ∧
    e.creation_date = (scanEvent db ev.properties).creation_date ∧
    e.extra_parameters = (scanEvent db ev.properties).extra_parameters := by
  unfold parse_event at h
  cases h1 : (scanEvent db ev.properties).name with
  | none => rw [h1] at h; exact absurd h (by simp)
  | some n =>
    rw [h1] at h
    cases h2 : (scanEvent db ev.properties).uid with
    | none => rw [h2] at h; exact absurd h (by simp)
    | some u =>
      rw [h2] at h
      cases h3 : (scanEvent db ev.properties).last_modified with
      | none => rw [h3] at h; exact absurd h (by simp)
      | some lm =>
        rw [h3] at h
        cases h4 : (scanEvent db ev.properties).dtstart with
        | none => rw [h4] at h; exact absurd h (by simp)
        | some s =>
          rw [h4] at h
          cases h5 : (scanEvent db ev.properties).dtend with
          | none => rw [h5] at h; exact absurd h (by simp)
          | some en =>
            rw [h5] at h
            simp only [Except.ok.injEq] at h
            subst h
            simp

/-- Claim C2: for every successfully parsed to-do the completion status
is derived solely from the STATUS property: if a STATUS property with
value COMPLETED is present the status is Completed carrying the parsed
COMPLETED timestamp when one is present and None otherwise; if no
STATUS property has value COMPLETED the status is Uncompleted and any
COMPLETED timestamp present is discarded with a logged warning, without
failing the parse. -/
theorem C2_completion_status_from_status (db : TzDb) (todo : IcalTodo)
    (url : String) (ss : SyncStatus) (pid : String) (t : Task)
    (h : parse_task db todo url ss pid = Except.ok t) :
    (hasStatusCompleted todo.properties = true →
       t.completion_status =
         CompletionStatus.Completed (completionDateOf db todo.properties)) ∧
    (hasStatusCompleted todo.properties = false →
       t.completion_status = CompletionStatus.Uncompleted ∧
       ((completionDateOf db todo.properties).isSome = true →
          task_warns db todo = true)) := by
  obtain ⟨h1, h2, h3, _, _, _, _, hcs, _⟩ :=
    parse_task_ok_fields db todo url ss pid t h
  rw [scanTask_completed, scanTask_completion] at hcs
  constructor
  · intro hs
    rw [hcs, hs]
    simp
  · intro hs
    rw [hcs, hs]
    refine ⟨by simp, ?_⟩
    intro hcd
    unfold task_warns
    rw [scanTask_completed, scanTask_completion, hs, h1, h2, h3]
    simp [hcd]

/-- Witness for C2 at a concrete completed to-do. -/
theorem C2_completion_status_from_status_witness :
    sampleCompletedTask.completion_status =
      CompletionStatus.Completed
        (completionDateOf emptyTzDb sampleCompletedTodo.properties) :=
  (C2_completion_status_from_status emptyTzDb sampleCompletedTodo
    "http://some.id/for/testing" SyncStatus.NotSynced "PRODID-test"
    sampleCompletedTask (by rfl)).1 (by rfl)

/-- Claim C3: for every to-do or event containing both a DTSTAMP and a
LAST-MODIFIED property, the produced item's last-modified field equals
the parsed value of whichever of the two properties occurs later in
document order (sequential overwrite of a single field). -/
theorem C3_last_modified_last_wins (db : TzDb) (url : String)
    (ss : SyncStatus) (pid : String) :
    (∀ (todo : IcalTodo) (t : Task),
       parse_task db todo url ss pid = Except.ok t →
       hasProp todo.properties "DTSTAMP" = true →
       hasProp todo.properties "LAST-MODIFIED" = true →
       ∃ p, todo.properties.reverse.find? isLastModifiedProp = some p ∧
         parse_date_time_from_property db p = some t.last_modified) ∧
    (∀ (ev : IcalEvent) (e : Event),
       parse_event db ev url ss pid = Except.ok e →
       hasProp ev.properties "DTSTAMP" = true →
       hasProp ev.properties "LAST-MODIFIED" = true →
       ∃ p, ev.properties.reverse.find? isLastModifiedProp = some p ∧
         parse_date_time_from_property db p = some e.last_modified) := by
  constructor
  · intro todo t h _ _
    obtain ⟨_, _, h3, _⟩ := parse_task_ok_fields db todo url ss pid t h
    rw [scanTask_lm] at h3
    cases hf : todo.properties.reverse.find? isLastModifiedProp with
    | none => rw [hf] at h3; exact absurd h3 (by simp)
    | some p => rw [hf] at h3; exact ⟨p, rfl, h3⟩
  · intro ev e h _ _
    obtain ⟨_, _, h3, _⟩ := parse_event_ok_fields db ev url ss pid e h
    rw [scanEvent_lm] at h3
    cases hf : ev.properties.reverse.find? isLastModifiedProp with
    | none => rw [hf] at h3; exact absurd h3 (by simp)
    | some p => rw [hf] at h3; exact ⟨p, rfl, h3⟩

/-- Witness for C3 at a concrete to-do holding both DTSTAMP and
LAST-MODIFIED. -/
theorem C3_last_modified_last_wins_witness :
    ∃ p, sampleTodo.properties.reverse.find? isLastModifiedProp = some p ∧
      parse_date_time_from_property emptyTzDb p = some sampleTask.last_modified :=
  (C3_last_modified_last_wins emptyTzDb "http://some.id/for/testing"
    SyncStatus.NotSynced "PRODID-test").1 sampleTodo sampleTask
    (by rfl) (by rfl) (by rfl)

/-- Claim C4: every property whose name is not in the component kind's
recognized set appears unchanged in the produced item's
preserved-properties collection, in original order with duplicates
kept, and unrecognized properties never cause the parse to fail. -/
theorem C4_unrecognized_preserved (db : TzDb) (url : String)
    (ss : SyncStatus) (pid : String) :
    (∀ (todo : IcalTodo) (t : Task),
       parse_task db todo url ss pid = Except.ok t →
       t.extra_parameters =
         todo.properties.filter (fun p => !(recognizedTask p.name))) ∧
    (∀ (ev : IcalEvent) (e : Event),
       parse_event db ev url ss pid = Except.ok e →
       e.extra_parameters =
         ev.properties.filter (fun p => !(recognizedEvent p.name))) ∧
    (∀ (l₁ l₂ : List Property) (q : Property), recognizedTask q.name = false →
       exOk (parse_task db ⟨l₁ ++ q :: l₂⟩ url ss pid) =
         exOk (parse_task db ⟨l₁ ++ l₂⟩ url ss pid)) ∧
    (∀ (l₁ l₂ : List Property) (q : Property), recognizedEvent q.name = false →
       exOk (parse_event db ⟨l₁ ++ q :: l₂⟩ url ss pid) =
         exOk (parse_event db ⟨l₁ ++ l₂⟩ url ss pid)) := by
  refine ⟨?_, ?_, ?_, ?_⟩
  · intro todo t h
    obtain ⟨_, _, _, _, _, _, _, _, hx⟩ :=
      parse_task_ok_fields db todo url ss pid t h
    rw [hx, scanTask_extra]
  · intro ev e h
    obtain ⟨_, _, _, _, _, _, _, _, _, _, hx⟩ :=
      parse_event_ok_fields db ev url ss pid e h
    rw [hx, scanEvent_extra]
  · intro l₁ l₂ q hq
    unfold recognizedTask at hq
    simp only [Bool.or_eq_false_iff] at hq
    obtain ⟨⟨⟨⟨⟨⟨hS, hU⟩, hD⟩, hL⟩, _⟩, _⟩, _⟩ := hq
    have hLM : isLastModifiedProp q = false := by
      unfold isLastModifiedProp; rw [hD, hL]; rfl
    rw [parse_task_isOk, parse_task_isOk]
    simp only [scanTask_name, scanTask_uid, scanTask_lm]
    rw [find?_middle_skip _ q hS l₁ l₂, find?_middle_skip _ q hU l₁ l₂,
      find?_middle_skip _ q hLM l₁ l₂]
  · intro l₁ l₂ q hq
    unfold recognizedEvent at hq
    simp only [Bool.or_eq_false_iff] at hq
    obtain ⟨⟨⟨⟨⟨⟨⟨hS, _⟩, hU⟩, hD⟩, hDS⟩, hDE⟩, hL⟩, _⟩ := hq
    have hLM : isLastModifiedProp q = false := by
      unfold isLastModifiedProp; rw [hD, hL]; rfl
    rw [parse_event_isOk, parse_event_isOk]
    simp only [scanEvent_name, scanEvent_uid, scanEvent_lm,
      scanEvent_dtstart, scanEvent_dtend]
    rw [find?_middle_skip _ q hS l₁ l₂, find?_middle_skip _ q hU l₁ l₂,
      find?_middle_skip _ q hLM l₁ l₂, find?_middle_skip _ q hDS l₁ l₂,
      find?_middle_skip _ q hDE l₁ l₂]

/-- Witness for C4 at a concrete to-do with an unrecognized property. -/
theorem C4_unrecognized_preserved_witness :
    sampleTask.extra_parameters =
      sampleTodo.properties.filter (fun p => !(recognizedTask p.name)) :=
  (C4_unrecognized_preserved emptyTzDb "http://some.id/for/testing"
    SyncStatus.NotSynced "PRODID-test").1 sampleTodo sampleTask (by rfl)

/-- Claim C5: component disambiguation accepts exactly two shapes - one
event and nothing else, or one to-do and nothing else - and every other
combination fails with the single-component error. -/
theorem C5_single_component_shapes (cal : IcalCalendar) :
    assert_single_type cal =
      (match cal.events, cal.todos, cal.journals with
       | [e], [], [] => Except.ok (CurrentType.event e)
       | [], [t], [] => Except.ok (CurrentType.todo t)
       | _, _, _ => Except.error singleTypeErr) := by
  obtain ⟨props, evs, tds, jns⟩ := cal
  unfold assert_single_type
  rcases evs with _ | ⟨e, _ | ⟨e2, evs⟩⟩ <;>
    rcases tds with _ | ⟨t, _ | ⟨t2, tds⟩⟩ <;>
    rcases jns with _ | ⟨j, jns⟩ <;>
    simp +arith [List.length]

/-- Claim C6: whenever a mandatory field is still absent after scanning
the whole component - name, uid and last-modified for both kinds, start
and end additionally for events - the build fails with the descriptive
error naming the missing field and the item URL, in source check order,
and no item is returned. -/
theorem C6_missing_mandatory_fields (db : TzDb) (url : String)
    (ss : SyncStatus) (pid : String) :
    (∀ todo : IcalTodo, (scanTask db todo.properties).name = none →
       parse_task db todo url ss pid = Except.error (missingNameErr url)) ∧
    (∀ todo : IcalTodo, (scanTask db todo.properties).name.isSome = true →
       (scanTask db todo.properties).uid = none →
       parse_task db todo url ss pid = Except.error (missingUidErr url)) ∧
    (∀ todo : IcalTodo, (scanTask db todo.properties).name.isSome = true →
       (scanTask db todo.properties).uid.isSome = true →
       (scanTask db todo.properties).last_modified = none →
       parse_task db todo url ss pid = Except.error (missingLastModifiedErr url)) ∧
    (∀ ev : IcalEvent, (scanEvent db ev.properties).name = none →
       parse_event db ev url ss pid = Except.error (missingNameErr url)) ∧
    (∀ ev : IcalEvent, (scanEvent db ev.properties).name.isSome = true →
       (scanEvent db ev.properties).uid = none →
       parse_event db ev url ss pid = Except.error (missingUidErr url)) ∧
    (∀ ev : IcalEvent, (scanEvent db ev.properties).name.isSome = true →
       (scanEvent db ev.properties).uid.isSome = true →
       (scanEvent db ev.properties).last_modified = none →
       parse_event db ev url ss pid = Except.error (missingLastModifiedErr url)) ∧
    (∀ ev : IcalEvent, (scanEvent db ev.properties).name.isSome = true →
       (scanEvent db ev.properties).uid.isSome = true →
       (scanEvent db ev.properties).last_modified.isSome = true →
       (scanEvent db ev.properties).dtstart = none →
       parse_event db ev url ss pid = Except.error (missingStartErr url)) ∧
    (∀ ev : IcalEvent, (scanEvent db ev.properties).name.isSome = true →
       (scanEvent db ev.properties).uid.isSome = true →
       (scanEvent db ev.properties).last_modified.isSome = true →
       (scanEvent db ev.properties).dtstart.isSome = true →
       (scanEvent db ev.properties).dtend = none →
       parse_event db ev url ss pid = Except.error (missingEndErr url)) := by
  refine ⟨?_, ?_, ?_, ?_, ?_, ?_, ?_, ?_⟩
  · intro todo h1
    unfold parse_task; rw [h1]
  · intro todo h1 h2
    obtain ⟨n, hn⟩ := Option.isSome_iff_exists.mp h1
    unfold parse_task; rw [hn, h2]
  · intro todo h1 h2 h3
    obtain ⟨n, hn⟩ := Option.isSome_iff_exists.mp h1
    obtain ⟨u, hu⟩ := Option.isSome_iff_exists.mp h2
    unfold parse_task; rw [hn, hu, h3]
  · intro ev h1
    unfold parse_event; rw [h1]
  · intro ev h1 h2
    obtain ⟨n, hn⟩ := Option.isSome_iff_exists.mp h1
    unfold parse_event; rw [hn, h2]
  · intro ev h1 h2 h3
    obtain ⟨n, hn⟩ := Option.isSome_iff_exists.mp h1
    obtain ⟨u, hu⟩ := Option.isSome_iff_exists.mp h2
    unfold parse_event; rw [hn, hu, h3]
  · intro ev h1 h2 h3 h4
    obtain ⟨n, hn⟩ := Option.isSome_iff_exists.mp h1
    obtain ⟨u, hu⟩ := Option.isSome_iff_exists.mp h2
    obtain ⟨lm, hlm⟩ := Option.isSome_iff_exists.mp h3
    unfold parse_event; rw [hn, hu, hlm, h4]
  · intro ev h1 h2 h3 h4 h5
    obtain ⟨n, hn⟩ := Option.isSome_iff_exists.mp h1
    obtain ⟨u, hu⟩ := Option.isSome_iff_exists.mp h2
    obtain ⟨lm, hlm⟩ := Option.isSome_iff_exists.mp h3
    obtain ⟨ds, hds⟩ := Option.isSome_iff_exists.mp h4
    unfold parse_event; rw [hn, hu, hlm, hds, h5]

/-- Witness for C6 at the empty to-do, whose scan leaves every field
absent. -/
theorem C6_missing_mandatory_fields_witness :
    parse_task emptyTzDb ⟨[]⟩ "http://x" SyncStatus.NotSynced "p" =
      Except.error (missingNameErr "http://x") :=
  (C6_missing_mandatory_fields emptyTzDb "http://x" SyncStatus.NotSynced "p").1
    ⟨[]⟩ (by rfl)

/-- Claim C8: a date-valued property matching none of the three
accepted encodings parses to an absent value and never by itself aborts
the parse: the builders only ever fail with the missing-mandatory-field
errors (never a date-format error), and a date property feeding an
optional field never changes whether the build succeeds. -/
theorem C8_unresolvable_date_absent (db : TzDb) (url : String)
    (ss : SyncStatus) (pid : String) :
    (∀ (p : Property) (s : String), p.value = some s →
       parseCompact true s = none → parseCompact false s = none →
       parse_date_time_from_property db p = none) ∧
    (∀ (todo : IcalTodo) (msg : String),
       parse_task db todo url ss pid = Except.error msg →
       msg = missingNameErr url ∨ msg = missingUidErr url ∨
         msg = missingLastModifiedErr url) ∧
    (∀ (ev : IcalEvent) (msg : String),
       parse_event db ev url ss pid = Except.error msg →
       msg = missingNameErr url ∨ msg = missingUidErr url ∨
         msg = missingLastModifiedErr url ∨ msg = missingStartErr url ∨
         msg = missingEndErr url) ∧
    (∀ (l₁ l₂ : List Property) (q : Property),
       (q.name == "COMPLETED" || q.name == "CREATED") = true →
       exOk (parse_task db ⟨l₁ ++ q :: l₂⟩ url ss pid) =
         exOk (parse_task db ⟨l₁ ++ l₂⟩ url ss pid)) ∧
    (∀ (l₁ l₂ : List Property) (q : Property),
       (q.name == "CREATED" || q.name == "DESCRIPTION") = true →
       exOk (parse_event db ⟨l₁ ++ q :: l₂⟩ url ss pid) =
         exOk (parse_event db ⟨l₁ ++ l₂⟩ url ss pid)) := by
  refine ⟨?_, ?_, ?_, ?_, ?_⟩
  · intro p s hv h1 h2
    unfold parse_date_time_from_property
    rw [hv]
    simp [h1, h2]
  · intro todo msg h
    unfold parse_task at h
    cases h1 : (scanTask db todo.properties).name with
    | none => rw [h1] at h; simp at h; exact Or.inl h.symm
    | some n =>
      rw [h1] at h
      cases h2 : (scanTask db todo.properties).uid with
      | none => rw [h2] at h; simp at h; exact Or.inr (Or.inl h.symm)
      | some u =>
        rw [h2] at h
        cases h3 : (scanTask db todo.properties).last_modified with
        | none => rw [h3] at h; simp at h; exact Or.inr (Or.inr h.symm)
        | some lm => rw [h3] at h; simp at h
  · intro ev msg h
    unfold parse_event at h
    cases h1 : (scanEvent db ev.properties).name with
    | none => rw [h1] at h; simp at h; exact Or.inl h.symm
    | some n =>
      rw [h1] at h
      cases h2 : (scanEvent db ev.properties).uid with
      | none => rw [h2] at h; simp at h; exact Or.inr (Or.inl h.symm)
      | some u =>
        rw [h2] at h
        cases h3 : (scanEvent db ev.properties).last_modified with
        | none => rw [h3] at h; simp at h; exact Or.inr (Or.inr (Or.inl h.symm))
        | some lm =>
          rw [h3] at h
          cases h4 : (scanEvent db ev.properties).dtstart with
          | none =>
            rw [h4] at h; simp at h
            exact Or.inr (Or.inr (Or.inr (Or.inl h.symm)))
          | some ds =>
            rw [h4] at h
            cases h5 : (scanEvent db ev.properties).dtend with
            | none =>
              rw [h5] at h; simp at h
              exact Or.inr (Or.inr (Or.inr (Or.inr h.symm)))
            | some de => rw [h5] at h; simp at h
  · intro l₁ l₂ q hq
    have hS : (q.name == "SUMMARY") = false := by
      cases hq' : q.name == "COMPLETED" with
      | true => simp_all
      | false => rw [hq'] at hq; simp_all
    have hU : (q.name == "UID") = false := by
      cases hq' : q.name == "COMPLETED" with
      | true => simp_all
      | false => rw [hq'] at hq; simp_all
    have hLM : isLastModifiedProp q = false := by
      unfold isLastModifiedProp
      cases hq' : q.name == "COMPLETED" with
      | true => simp_all
      | false => rw [hq'] at hq; simp_all
    rw [parse_task_isOk, parse_task_isOk]
    simp only [scanTask_name, scanTask_uid, scanTask_lm]
    rw [find?_middle_skip _ q hS l₁ l₂, find?_middle_skip _ q hU l₁ l₂,
      find?_middle_skip _ q hLM l₁ l₂]
  · intro l₁ l₂ q hq
    have hS : (q.name == "SUMMARY") = false := by
      cases hq' : q.name == "CREATED" with
      | true => simp_all
      | false => rw [hq'] at hq; simp_all
    have hU : (q.name == "UID") = false := by
      cases hq' : q.name == "CREATED" with
      | true => simp_all
      | false => rw [hq'] at hq; simp_all
    have hLM : isLastModifiedProp q = false := by
      unfold isLastModifiedProp
      cases hq' : q.name == "CREATED" with
      | true => simp_all
      | false => rw [hq'] at hq; simp_all
    have hDS : (q.name == "DTSTART") = false := by
      cases hq' : q.name == "CREATED" with
      | true => simp_all
      | false => rw [hq'] at hq; simp_all
    have hDE : (q.name == "DTEND") = false := by
      cases hq' : q.name == "CREATED" with
      | true => simp_all
      | false => rw [hq'] at hq; simp_all
    rw [parse_event_isOk, parse_event_isOk]
    simp only [scanEvent_name, scanEvent_uid, scanEvent_lm,
      scanEvent_dtstart, scanEvent_dtend]
    rw [find?_middle_skip _ q hS l₁ l₂, find?_middle_skip _ q hU l₁ l₂,
      find?_middle_skip _ q hLM l₁ l₂, find?_middle_skip _ q hDS l₁ l₂,
      find?_middle_skip _ q hDE l₁ l₂]

/-- Witness for C8: a DTSTAMP value matching no accepted encoding
parses to an absent value. -/
theorem C8_unresolvable_date_absent_witness :
    parse_date_time_from_property emptyTzDb
      { name := "DTSTAMP", params := none, value := some "not-a-date" } = none :=
  (C8_unresolvable_date_absent emptyTzDb "http://x" SyncStatus.NotSynced "p").1
    { name := "DTSTAMP", params := none, value := some "not-a-date" }
    "not-a-date" (by rfl) (by rfl) (by rfl)

/-- The parse entry point consults the document stream only through its
head and through the success of its second yield: equal second-yield
checks give equal results. -/
theorem parse_second_congr (db : TzDb) (d0 : Except String IcalCalendar)
    (t t' : List (Except String IcalCalendar)) (url : String) (ss : SyncStatus)
    (h : secondOk (d0 :: t) = secondOk (d0 :: t')) :
    parse db (d0 :: t) url ss = parse db (d0 :: t') url ss := by
  unfold parse
  cases d0 with
  | error e => rfl
  | ok cal =>
    simp only [List.head?_cons]
    rw [h]

/-- Claim C7: whenever the document stream yields a second
successfully-parsed top-level document, parse returns an error, never
an item. -/
theorem C7_multiple_documents_rejected (db : TzDb)
    (docs : List (Except String IcalCalendar)) (url : String)
    (ss : SyncStatus) (c : IcalCalendar)
    (h : docs[1]? = some (Except.ok c)) :
    exOk (parse db docs url ss) = false := by
  match docs with
  | [] => simp at h
  | [d0] => simp at h
  | d0 :: d1 :: rest =>
    simp only [List.getElem?_cons_succ, List.getElem?_cons_zero,
      Option.some.injEq] at h
    subst h
    have hsec : secondOk (d0 :: Except.ok c :: rest) = true := rfl
    unfold parse
    cases d0 with
    | error e => rfl
    | ok cal =>
      simp only [List.head?_cons]
      cases hast : assert_single_type cal with
      | error e => simp [exOk]
      | ok ct =>
        cases ct with
        | event ev =>
          cases hb : parse_event db ev url ss
              ((extract_ical_prod_id cal).getD default_prod_id) with
          | error e => simp [hb, exOk]
          | ok x => simp [hb, hsec, exOk]
        | todo td =>
          cases hb : parse_task db td url ss
              ((extract_ical_prod_id cal).getD default_prod_id) with
          | error e => simp [hb, exOk]
          | ok x => simp [hb, hsec, exOk]

/-- Witness for C7: two valid documents in one stream are rejected. -/
theorem C7_multiple_documents_rejected_witness :
    exOk (parse emptyTzDb [Except.ok sampleCal, Except.ok sampleCal]
      "http://some.id/for/testing" SyncStatus.NotSynced) = false :=
  C7_multiple_documents_rejected emptyTzDb
    [Except.ok sampleCal, Except.ok sampleCal]
    "http://some.id/for/testing" SyncStatus.NotSynced sampleCal (by rfl)

/-- Claim C9: after the first document, parse inspects exactly one
further yield: a failed or absent second yield leaves the result of the
first document untouched, and nothing past the second yield is ever
examined. -/
theorem C9_second_yield_inspection (db : TzDb)
    (d0 : Except String IcalCalendar)
    (rest : List (Except String IcalCalendar)) (url : String)
    (ss : SyncStatus) (item : Item) :
    (parse db [d0] url ss = Except.ok item →
       (rest.head? = none ∨ ∃ e, rest.head? = some (Except.error e)) →
       parse db (d0 :: rest) url ss = Except.ok item) ∧
    (∀ (d1 : Except String IcalCalendar)
       (r r' : List (Except String IcalCalendar)),
       parse db (d0 :: d1 :: r) url ss = parse db (d0 :: d1 :: r') url ss) := by
  constructor
  · intro h1 h2
    rcases h2 with h2 | ⟨e, h2⟩
    · rw [List.head?_eq_none_iff] at h2
      subst h2
      exact h1
    · rcases rest with _ | ⟨r0, r⟩
      · simp at h2
      · simp only [List.head?_cons, Option.some.injEq] at h2
        subst h2
        rw [parse_second_congr db d0 (Except.error e :: r) [] url ss rfl]
        exact h1
  · intro d1 r r'
    apply parse_second_congr
    cases d1 <;> rfl

/-- Witness for C9: a malformed second document is ignored and a valid
third document is never examined. -/
theorem C9_second_yield_inspection_witness :
    parse emptyTzDb
        [Except.ok sampleCal, Except.error "syntax error", Except.ok sampleCal]
        "http://some.id/for/testing" SyncStatus.NotSynced =
      Except.ok (Item.Task sampleTask) :=
  (C9_second_yield_inspection emptyTzDb (Except.ok sampleCal)
    [Except.error "syntax error", Except.ok sampleCal]
    "http://some.id/for/testing" SyncStatus.NotSynced
    (Item.Task sampleTask)).1 (by rfl) (Or.inr ⟨"syntax error", rfl⟩)

/-- Claim C10: unwrap_task and unwrap_task_mut return the inner task
exactly on the Task variant and panic with "Not a task" on the Event
variant, so unwrap_task completes normally iff is_task is true. -/
theorem C10_unwrap_task_iff_is_task :
    (∀ t : Task, Item.unwrap_task (Item.Task t) = Except.ok t ∧
       Item.unwrap_task_mut (Item.Task t) = Except.ok t) ∧
    (∀ e : Event, Item.unwrap_task (Item.Event e) = Except.error ("Not a task") ∧
       Item.unwrap_task_mut (Item.Event e) = Except.error ("Not a task")) ∧
    (∀ i : Item, exOk (Item.unwrap_task i) = i.is_task ∧
       exOk (Item.unwrap_task_mut i) = i.is_task) := by
  refine ⟨fun t => ⟨rfl, rfl⟩, fun e => ⟨rfl, rfl⟩, fun i => ?_⟩
  cases i <;> exact ⟨rfl, rfl⟩

end KitchenFridge
